/-
Verification of `hardhat-gas-report-diff` (`hhgrdiff/__main__.py`).

The Python program parses two "gas reports" with a three-state line-oriented
machine and prints a Markdown table of cost deltas.  This file gives a shallow
embedding of that program:

* `flatten_line` models `flatten_line` (split on the middle dot, strip the
  boundary characters, drop empty segments);
* `parseStep` / `new_report_dict_from_lines` model the body of
  `new_report_dict_from_file` (the file is modelled as its list of lines,
  Python's `dict` as an association list with overwriting insert);
* `calculate_line`, `print_table_line`, `print_subdict_in_markdown_table`,
  `format_markdown` model the formatter.  Printing is modelled by returning
  the list of emitted lines; an uncaught Python exception (`ValueError` from
  `int`, `ZeroDivisionError` from `/`) is modelled by `Except.error`.
  Python's float percentage `diff / before_int` is modelled in exact integer
  arithmetic (`formatPlus2f` rounds half-to-even, as `str.format` does on the
  exactly representable values that arise here).
-/
import Mathlib

namespace Hhgrdiff

/-! ## Python helpers -/

/-- Model of Python's `needle in hay` substring test. -/
def pyContains (hay needle : String) : Bool :=
  decide (needle.toList <:+: hay.toList)

/-- Digits of a Python `int` literal body: nonempty, all ASCII digits. -/
def digitsToNat? (cs : List Char) : Option Nat :=
  if cs.isEmpty then none
  else if cs.all Char.isDigit then
    some (cs.foldl (fun a c => 10 * a + (c.toNat - 48)) 0)
  else none

/-- Strip leading and trailing whitespace, as `int(s)` does before parsing. -/
def stripWhitespace (cs : List Char) : List Char :=
  ((cs.dropWhile Char.isWhitespace).reverse.dropWhile Char.isWhitespace).reverse

/-- Model of Python's `int(s)`: strip whitespace, optional sign, digits
(the shapes that arise in gas reports; `none` models the `ValueError`
raised on any other shape, e.g. `"100.0"` or `""`). -/
def pyInt? (s : String) : Option Int :=
  match stripWhitespace s.toList with
  | [] => none
  | '+' :: rest => (digitsToNat? rest).map (fun n => (n : Int))
  | '-' :: rest => (digitsToNat? rest).map (fun n => -(n : Int))
  | cs => (digitsToNat? cs).map (fun n => (n : Int))

/-! ## Line flattener -/

/-- Model of Python's `line.split(sep)` for a one-character separator:
split on every occurrence of `sep`, keeping empty segments
(so `"".split` is `[""]` and separators at the ends produce empty segments). -/
def splitOnChar (sep : Char) : List Char → List (List Char)
  | [] => [[]]
  | c :: rest =>
    let r := splitOnChar sep rest
    if c = sep then [] :: r
    else
      match r with
      | [] => [[c]]
      | h :: t => (c :: h) :: t

/-- The characters stripped by `column.strip('│| \n')`. -/
def isStripChar (c : Char) : Bool :=
  c == '│' || c == '|' || c == ' ' || c == '\n'

/-- Model of Python's `column.strip('│| \n')`: remove those characters from
both ends. -/
def stripChars (cs : List Char) : List Char :=
  ((cs.dropWhile isStripChar).reverse.dropWhile isStripChar).reverse

/-- `flatten_line`: split the line on `'·'`, strip each segment, keep the
non-empty results (Python: `[col for column in line.split('·') if (col := column.strip('│| \n'))]`). -/
def flatten_line (line : String) : List String :=
  (splitOnChar '·' line.toList).filterMap (fun column =>
    let col := stripChars column
    if col.isEmpty then none else some (String.mk col))

/-! ## Report parser -/

/-- The states of the finite machine (`class State(Enum)`). -/
inductive State where
  | HEADER
  | METHODS
  | DEPLOYMENTS
deriving DecidableEq

/-- A methods-table row: `dict(zip(METHOD_COLUMNS, data))` with
`METHOD_COLUMNS = (contract, method, min, max, avg, calls, avgeur)`,
realised as a fixed-arity record. -/
structure MethodRecord where
  contract : String
  method : String
  min : String
  max : String
  avg : String
  calls : String
  avgeur : String
deriving DecidableEq

/-- A deployments-table row: `dict(zip(DEPLOYMENT_COLUMNS, data))` with
`DEPLOYMENT_COLUMNS = (contract, min, max, avg, pctg, avgeur)`. -/
structure DeploymentRecord where
  contract : String
  min : String
  max : String
  avg : String
  pctg : String
  avgeur : String
deriving DecidableEq

/-- `dict(zip(METHOD_COLUMNS, data))` guarded by
`len(data) == len(METHOD_COLUMNS)`: succeeds exactly on 7 values. -/
def mkMethodRecord? : List String → Option MethodRecord
  | [contract, method, mn, mx, avg, calls, avgeur] =>
    some ⟨contract, method, mn, mx, avg, calls, avgeur⟩
  | _ => none

/-- `dict(zip(DEPLOYMENT_COLUMNS, data))` guarded by
`len(data) == len(DEPLOYMENT_COLUMNS)`: succeeds exactly on 6 values. -/
def mkDeploymentRecord? : List String → Option DeploymentRecord
  | [contract, mn, mx, avg, pctg, avgeur] =>
    some ⟨contract, mn, mx, avg, pctg, avgeur⟩
  | _ => none

/-- Python `dict` with `String` keys, as an association list. -/
abbrev Dict (α : Type) : Type := List (String × α)

/-- Python `d[k]` lookup (as an `Option`): the entry stored under `k`. -/
def dfind? {α : Type} (d : Dict α) (k : String) : Option α :=
  (d.find? (fun p => p.1 == k)).map Prod.snd

/-- Python `d[k] = v`: overwrite the entry under `k` if present, else append. -/
def dictInsert {α : Type} (d : Dict α) (k : String) (v : α) : Dict α :=
  if k ∈ d.map Prod.fst then
    d.map (fun p => if p.1 = k then (k, v) else p)
  else d ++ [(k, v)]

/-- One iteration of the `for line in fp` loop of `new_report_dict_from_file`:
from the current state and accumulated mappings, process one line.  The
returned state is the `next_state` that applies from the following line. -/
def parseStep (st : State) (methods : Dict MethodRecord)
    (deployments : Dict DeploymentRecord) (line : String) :
    State × Dict MethodRecord × Dict DeploymentRecord :=
  match st with
  | .HEADER =>
    if pyContains line "Contract" then (.METHODS, methods, deployments)
    else (.HEADER, methods, deployments)
  | .METHODS =>
    if pyContains line "Deployments" then (.DEPLOYMENTS, methods, deployments)
    else
      match mkMethodRecord? (flatten_line line) with
      | some labeled_data =>
        (.METHODS,
         dictInsert methods (labeled_data.contract ++ "." ++ labeled_data.method)
           labeled_data,
         deployments)
      | none => (.METHODS, methods, deployments)
  | .DEPLOYMENTS =>
    match mkDeploymentRecord? (flatten_line line) with
    | some labeled_data =>
      (.DEPLOYMENTS, methods, dictInsert deployments labeled_data.contract labeled_data)
    | none => (.DEPLOYMENTS, methods, deployments)

/-- The result of `new_report_dict_from_file`. -/
structure Report where
  methods : Dict MethodRecord
  deployments : Dict DeploymentRecord
deriving DecidableEq

/-- The whole `for line in fp` loop, starting in `HEADER` with empty mappings. -/
def parseFold (lines : List String) :
    State × Dict MethodRecord × Dict DeploymentRecord :=
  lines.foldl (fun acc line => parseStep acc.1 acc.2.1 acc.2.2 line)
    (State.HEADER, [], [])

/-- `new_report_dict_from_file`, with the file given as its list of lines:
return the mappings accumulated when end-of-file is reached. -/
def new_report_dict_from_lines (lines : List String) : Report :=
  ⟨(parseFold lines).2.1, (parseFold lines).2.2⟩

/-! ## Diff formatter -/

/-- `MARKDOWN_TABLE_COLUMNS`. -/
def MARKDOWN_TABLE_COLUMNS : List String :=
  ["Method call or Contract deployment", "Before", "After",
   "After - Before", "(After - Before) / Before"]

/-- `MARKDOWN_TABLE_ALIGNMENTS`. -/
def MARKDOWN_TABLE_ALIGNMENTS : List String :=
  [":-", ":-:", ":-:", ":-:", ":-:"]

/-- The uncaught Python exceptions the formatter can raise. -/
inductive PyError where
  | valueError
  | zeroDivisionError
deriving DecidableEq

instance {ε α : Type} [DecidableEq ε] [DecidableEq α] : DecidableEq (Except ε α) :=
  fun x y =>
    match x, y with
    | .error e, .error f =>
      if h : e = f then .isTrue (by rw [h]) else .isFalse (by simp [h])
    | .error _, .ok _ => .isFalse (by simp)
    | .ok _, .error _ => .isFalse (by simp)
    | .ok a, .ok b =>
      if h : a = b then .isTrue (by rw [h]) else .isFalse (by simp [h])

/-- The command-line options consumed by the formatter. -/
structure Args where
  keep_zeros : Bool
  both : Bool
deriving DecidableEq

/-- `print_list_in_markdown_table`: the single line
`'| {} |'.format(' | '.join(lst))` it prints. -/
def print_list_in_markdown_table (lst : List String) : String :=
  "| " ++ String.intercalate " | " lst ++ " |"

/-- `dicts_union`: `sorted(set(d1) | set(d2))` over the keys.  The set union
is the deduplicated list of keys of both dicts; `sorted` is modelled by
insertion sort under the lexicographic `String` order (on a duplicate-free
list every correct sort returns the same, unique, increasing enumeration). -/
def dicts_union {α β : Type} (d1 : Dict α) (d2 : Dict β) : List String :=
  List.insertionSort (· ≤ ·) ((d1.map Prod.fst ++ d2.map Prod.fst).dedup)

/-- `"{:+d}".format(d)`: the integer with an explicit leading sign. -/
def formatSignedInt (d : Int) : String :=
  (if d < 0 then "-" else "+") ++ toString d.natAbs

/-- Round `N / D` (for `0 < D`) to the nearest integer, ties to even —
the rounding Python's `"{:.2f}"` float formatting performs. -/
def roundHalfEvenDiv (N D : Int) : Int :=
  let f := Int.fdiv N D
  let r := N - f * D
  if 2 * r < D then f
  else if D < 2 * r then f + 1
  else if f % 2 = 0 then f else f + 1

/-- `"{:+.2f}".format(num / den)` (for `den ≠ 0`), in exact arithmetic:
sign of the quotient, then its absolute value rounded to two decimals. -/
def formatPlus2f (num den : Int) : String :=
  let N := if den < 0 then -num else num
  let D := if den < 0 then -den else den
  let m := (roundHalfEvenDiv (100 * N) D).natAbs
  (if N < 0 then "-" else "+") ++ toString (m / 100) ++ "." ++
    (if m % 100 < 10 then "0" ++ toString (m % 100) else toString (m % 100))

/-- `calculate_line(before, after)`: the four value columns
`[before, after, "{:+d}".format(diff), "{:+.2f}%".format(100*diff_pct)]`,
or the exception `int` / `/` raises (`int(before)` is evaluated first,
then `int(after)`, then the division by `before_int`). -/
def calculate_line (before after : String) : Except PyError (List String) :=
  match pyInt? before with
  | none => .error .valueError
  | some before_int =>
    match pyInt? after with
    | none => .error .valueError
    | some after_int =>
      let diff := after_int - before_int
      if before_int = 0 then .error .zeroDivisionError
      else
        .ok [before, after, formatSignedInt diff,
             formatPlus2f (100 * diff) before_int ++ "%"]

/-- The one field the formatter reads from a record: `rec['avg']`. -/
class HasAvg (α : Type) where
  avg : α → String

instance : HasAvg MethodRecord :=
  ⟨MethodRecord.avg⟩

instance : HasAvg DeploymentRecord :=
  ⟨DeploymentRecord.avg⟩

/-- `print_table_line(before, after, key, args)`: the list of lines printed
for one key (empty when the row is skipped), or the uncaught exception. -/
def print_table_line {α : Type} [HasAvg α] (before after : Dict α)
    (key : String) (args : Args) : Except PyError (List String) :=
  let name := "`" ++ key ++ "`"
  match dfind? before key, dfind? after key with
  | some bRec, some aRec =>
    let before_avg := HasAvg.avg bRec
    let after_avg := HasAvg.avg aRec
    if ¬(args.keep_zeros = false ∧ before_avg = after_avg) then
      (calculate_line before_avg after_avg).map
        (fun cols => [print_list_in_markdown_table (name :: cols)])
    else .ok []
  | some bRec, none =>
    if args.both = false then
      .ok [print_list_in_markdown_table [name, HasAvg.avg bRec, "-", "-", "-"]]
    else .ok []
  | none, some aRec =>
    if args.both = false then
      .ok [print_list_in_markdown_table [name, "-", HasAvg.avg aRec, "-", "-"]]
    else .ok []
  | none, none => .ok []

/-- `print_subdict_in_markdown_table` for one section (the caller projects
`before[datakey]` / `after[datakey]`): all lines printed by the key loop. -/
def print_subdict_in_markdown_table {α : Type} [HasAvg α]
    (before_data after_data : Dict α) (args : Args) :
    Except PyError (List String) :=
  (dicts_union before_data after_data).foldlM
    (fun acc key =>
      (print_table_line before_data after_data key args).map (fun ls => acc ++ ls))
    []

/-- `format_markdown(before, after, args)`: header, alignment row, methods
section, deployments section. -/
def format_markdown (before after : Report) (args : Args) :
    Except PyError (List String) :=
  match print_subdict_in_markdown_table before.methods after.methods args with
  | .error e => .error e
  | .ok m =>
    match print_subdict_in_markdown_table before.deployments after.deployments args with
    | .error e => .error e
    | .ok d =>
      .ok ([print_list_in_markdown_table MARKDOWN_TABLE_COLUMNS,
            print_list_in_markdown_table MARKDOWN_TABLE_ALIGNMENTS] ++ m ++ d)

/-! ## Helper lemmas -/

theorem find?_map_overwrite {α : Type} (k : String) (v : α) :
    ∀ d : Dict α, k ∈ d.map Prod.fst →
      (d.map (fun p => if p.1 = k then (k, v) else p)).find? (fun p => p.1 == k)
        = some (k, v) := by
  intro d
  induction d with
  | nil => intro h; simp at h
  | cons p d ih =>
    intro hmem
    simp only [List.map_cons]
    by_cases hpk : p.1 = k
    · rw [if_pos hpk, List.find?_cons_of_pos _ (by simp)]
    · rw [if_neg hpk, List.find?_cons_of_neg _ (by simp [hpk])]
      apply ih
      simp only [List.map_cons, List.mem_cons] at hmem
      rcases hmem with h | h
      · exact absurd h.symm hpk
      · exact h

theorem find?_append_new {α : Type} (k : String) (v : α) :
    ∀ d : Dict α, k ∉ d.map Prod.fst →
      ((d ++ [(k, v)]).find? (fun p => p.1 == k)) = some (k, v) := by
  intro d
  induction d with
  | nil =>
    intro _
    rw [List.nil_append, List.find?_cons_of_pos _ (by simp)]
  | cons p d ih =>
    intro hmem
    simp only [List.map_cons, List.mem_cons, not_or] at hmem
    rw [List.cons_append, List.find?_cons_of_neg _ (by simp; exact fun h => hmem.1 h.symm)]
    apply ih
    exact hmem.2

theorem dfind?_dictInsert {α : Type} (d : Dict α) (k : String) (v : α) :
    dfind? (dictInsert d k v) k = some v := by
  unfold dictInsert dfind?
  by_cases hmem : k ∈ d.map Prod.fst
  · rw [if_pos hmem, find?_map_overwrite k v d hmem]
    rfl
  · rw [if_neg hmem, find?_append_new k v d hmem]
    rfl

theorem exists_of_len7 {α : Type} (l : List α) (h : l.length = 7) :
    ∃ a b c d e f g, l = [a, b, c, d, e, f, g] := by
  match l with
  | [a, b, c, d, e, f, g] => exact ⟨a, b, c, d, e, f, g, rfl⟩
  | [] | [_] | [_, _] | [_, _, _] | [_, _, _, _] | [_, _, _, _, _] | [_, _, _, _, _, _] =>
    simp at h
  | _ :: _ :: _ :: _ :: _ :: _ :: _ :: _ :: _ =>
    simp only [List.length_cons] at h
    omega

theorem exists_of_len6 {α : Type} (l : List α) (h : l.length = 6) :
    ∃ a b c d e f, l = [a, b, c, d, e, f] := by
  match l with
  | [a, b, c, d, e, f] => exact ⟨a, b, c, d, e, f, rfl⟩
  | [] | [_] | [_, _] | [_, _, _] | [_, _, _, _] | [_, _, _, _, _] =>
    simp at h
  | _ :: _ :: _ :: _ :: _ :: _ :: _ :: _ =>
    simp only [List.length_cons] at h
    omega

theorem mkMethodRecord?_eq_none {l : List String} (h : l.length ≠ 7) :
    mkMethodRecord? l = none := by
  match l with
  | [_, _, _, _, _, _, _] => exact absurd rfl h
  | [] | [_] | [_, _] | [_, _, _] | [_, _, _, _] | [_, _, _, _, _] | [_, _, _, _, _, _] => rfl
  | _ :: _ :: _ :: _ :: _ :: _ :: _ :: _ :: _ => rfl

theorem mkDeploymentRecord?_eq_none {l : List String} (h : l.length ≠ 6) :
    mkDeploymentRecord? l = none := by
  match l with
  | [_, _, _, _, _, _] => exact absurd rfl h
  | [] | [_] | [_, _] | [_, _, _] | [_, _, _, _] | [_, _, _, _, _] => rfl
  | _ :: _ :: _ :: _ :: _ :: _ :: _ :: _ => rfl

theorem splitOnChar_ne_nil (sep : Char) (cs : List Char) : splitOnChar sep cs ≠ [] := by
  cases cs with
  | nil => simp [splitOnChar]
  | cons c rest =>
    simp only [splitOnChar]
    split
    · simp
    · split
      · simp
      · simp

theorem mem_splitOnChar (sep : Char) :
    ∀ (cs : List Char) (seg : List Char), seg ∈ splitOnChar sep cs →
      ∀ c ∈ seg, c ∈ cs ∧ c ≠ sep := by
  intro cs
  induction cs with
  | nil =>
    intro seg hseg c hc
    simp only [splitOnChar, List.mem_singleton] at hseg
    subst hseg
    simp at hc
  | cons x rest ih =>
    intro seg hseg c hc
    by_cases hx : x = sep
    · simp only [splitOnChar, if_pos hx, List.mem_cons] at hseg
      rcases hseg with h | h
      · subst h; simp at hc
      · rcases ih seg h c hc with ⟨h1, h2⟩
        exact ⟨List.mem_cons_of_mem _ h1, h2⟩
    · rcases hr : splitOnChar sep rest with _ | ⟨h1, t⟩
      · exact absurd hr (splitOnChar_ne_nil sep rest)
      · simp only [splitOnChar, if_neg hx, hr, List.mem_cons] at hseg
        rcases hseg with h | h
        · subst h
          rcases List.mem_cons.mp hc with h | h
          · subst h; exact ⟨List.mem_cons_self _ _, hx⟩
          · rcases ih h1 (by rw [hr]; exact List.mem_cons_self _ _) c h with ⟨m1, m2⟩
            exact ⟨List.mem_cons_of_mem _ m1, m2⟩
        · rcases ih seg (by rw [hr]; exact List.mem_cons_of_mem _ h) c hc with ⟨m1, m2⟩
          exact ⟨List.mem_cons_of_mem _ m1, m2⟩

theorem splitOnChar_of_not_mem (sep : Char) :
    ∀ cs : List Char, sep ∉ cs → splitOnChar sep cs = [cs] := by
  intro cs
  induction cs with
  | nil => intro _; rfl
  | cons x rest ih =>
    intro h
    simp only [List.mem_cons, not_or] at h
    have hx : ¬ x = sep := fun hh => h.1 hh.symm
    simp only [splitOnChar, if_neg hx, ih h.2]

theorem stripChars_eq_nil {cs : List Char} (h : ∀ c ∈ cs, isStripChar c = true) :
    stripChars cs = [] := by
  unfold stripChars
  have h1 : cs.dropWhile isStripChar = [] := List.dropWhile_eq_nil_iff.mpr h
  rw [h1]
  simp

theorem filterMap_strip (L : List (List Char)) :
    L.filterMap (fun column =>
        let col := stripChars column
        if col.isEmpty then none else some (String.mk col))
      = (L.filter (fun seg => !(stripChars seg).isEmpty)).map
          (fun seg => String.mk (stripChars seg)) := by
  induction L with
  | nil => rfl
  | cons a L ih =>
    cases h : (stripChars a).isEmpty <;>
      simp_all [List.filterMap_cons, List.filter_cons]

/-! ## Claim theorems -/

/-- C1: if both reports contain the method key `"A.foo"`, with avg `"100"`
before and `"150"` after, then with `keep_zeros = false` and `both = false`
the formatter emits exactly one body row for that key, namely
`"| `A.foo` | 100 | 150 | +50 | +50.00% |"`: the key in backticks, the two
avg strings, the signed integer difference, and the signed percentage
(diff / before) with two decimals. -/
theorem C1_changed_row {α : Type} [HasAvg α] (before after : Dict α) (b a : α)
    (hb : dfind? before "A.foo" = some b) (ha : dfind? after "A.foo" = some a)
    (hbavg : HasAvg.avg b = "100") (haavg : HasAvg.avg a = "150") :
    print_table_line before after "A.foo" ⟨false, false⟩ =
      .ok ["| `A.foo` | 100 | 150 | +50 | +50.00% |"] := by
  unfold print_table_line
  rw [hb, ha]
  simp only [hbavg, haavg]
  rw [if_pos (by simp)]
  decide

/-- Witness for C1 on concrete singleton reports. -/
theorem C1_changed_row_witness :
    print_table_line
        [("A.foo", (⟨"A", "foo", "90", "110", "100", "3", "4"⟩ : MethodRecord))]
        [("A.foo", (⟨"A", "foo", "120", "180", "150", "3", "4"⟩ : MethodRecord))]
        "A.foo" ⟨false, false⟩ =
      .ok ["| `A.foo` | 100 | 150 | +50 | +50.00% |"] :=
  C1_changed_row _ _ ⟨"A", "foo", "90", "110", "100", "3", "4"⟩
    ⟨"A", "foo", "120", "180", "150", "3", "4"⟩ (by decide) (by decide) rfl rfl

/-- Rank of a state along the one-directional chain
`HEADER → METHODS → DEPLOYMENTS`. -/
def stateRank : State → Nat
  | .HEADER => 0
  | .METHODS => 1
  | .DEPLOYMENTS => 2

/-- C4: a line containing `"Contract"` in `HEADER`, or `"Deployments"` in
`METHODS`, changes the state (effective from the next line, since `parseStep`
returns the state used for the following line) and leaves both mappings
untouched — the transition line is never parsed as a record, whatever its
flattened column count.  Transitions only move forward along the chain by at
most one state, and `DEPLOYMENTS` is never left. -/
theorem C4_transitions (m : Dict MethodRecord) (d : Dict DeploymentRecord)
    (line : String) :
    (pyContains line "Contract" = true →
      parseStep .HEADER m d line = (.METHODS, m, d))
    ∧ (pyContains line "Deployments" = true →
      parseStep .METHODS m d line = (.DEPLOYMENTS, m, d))
    ∧ (∀ st : State,
        stateRank st ≤ stateRank (parseStep st m d line).1
        ∧ stateRank (parseStep st m d line).1 ≤ stateRank st + 1)
    ∧ (parseStep .DEPLOYMENTS m d line).1 = .DEPLOYMENTS := by
  refine ⟨fun h => by simp [parseStep, h], fun h => by simp [parseStep, h], ?_, ?_⟩
  · intro st
    rcases st with _ | _ | _
    · simp only [parseStep]
      by_cases h : pyContains line "Contract" = true
      · simp [h, stateRank]
      · simp [h, stateRank]
    · simp only [parseStep]
      by_cases h : pyContains line "Deployments" = true
      · simp [h, stateRank]
      · rcases hm : mkMethodRecord? (flatten_line line) with _ | r
        · simp [h, hm, stateRank]
        · simp [h, hm, stateRank]
    · simp only [parseStep]
      rcases hm : mkDeploymentRecord? (flatten_line line) with _ | r
      · simp [hm, stateRank]
      · simp [hm, stateRank]
  · simp only [parseStep]
    rcases hm : mkDeploymentRecord? (flatten_line line) with _ | r
    · simp [hm]
    · simp [hm]

/-- Witness for C4: the two transition lines, both of which flatten to the
expected record arity of their section yet are not parsed as records. -/
theorem C4_transitions_witness :
    parseStep .HEADER [] [] "│ Contract · a · b · c · d · e · f │" = (.METHODS, [], [])
    ∧ parseStep .METHODS [] [] "│ Deployments · a · b · c · d · e · f │"
        = (.DEPLOYMENTS, [], []) :=
  ⟨(C4_transitions [] [] _).1 (by decide),
   (C4_transitions [] [] _).2.1 (by decide)⟩

/-- C9: `new_report_dict_from_file` returns the two mappings exactly as
accumulated when the line list is exhausted, whatever state was reached; a
file with no line containing `"Contract"` never leaves `HEADER` and yields
two empty mappings. -/
theorem C9_eof_returns_accumulated :
    (∀ lines : List String,
      new_report_dict_from_lines lines =
        ⟨(parseFold lines).2.1, (parseFold lines).2.2⟩)
    ∧ (∀ lines : List String,
      (∀ l ∈ lines, pyContains l "Contract" = false) →
      new_report_dict_from_lines lines = ⟨[], []⟩) := by
  constructor
  · intro lines
    rfl
  · have key : ∀ (lines : List String) (m : Dict MethodRecord)
        (d : Dict DeploymentRecord),
        (∀ l ∈ lines, pyContains l "Contract" = false) →
        lines.foldl (fun acc line => parseStep acc.1 acc.2.1 acc.2.2 line)
          (State.HEADER, m, d) = (State.HEADER, m, d) := by
      intro lines
      induction lines with
      | nil => intro m d _; rfl
      | cons l ls ih =>
        intro m d h
        have hstep : parseStep .HEADER m d l = (.HEADER, m, d) := by
          simp [parseStep, h l (List.mem_cons_self _ _)]
        simp only [List.foldl_cons, hstep]
        exact ih m d (fun x hx => h x (List.mem_cons_of_mem _ hx))
    intro lines h
    unfold new_report_dict_from_lines parseFold
    rw [key lines [] [] h]

/-- Witness for C9: a report with no `"Contract"` marker parses to nothing. -/
theorem C9_eof_returns_accumulated_witness :
    new_report_dict_from_lines ["│ Gas · report │", "│ a · b │"] = ⟨[], []⟩ :=
  C9_eof_returns_accumulated.2 ["│ Gas · report │", "│ a · b │"] (by decide)

/-- C10: in the terminal `DEPLOYMENTS` state no substring check applies:
even a line containing `"Contract"` or `"Deployments"` is flattened and, if
it yields exactly 6 values, stored as a deployment record keyed by its first
value; otherwise it is skipped.  Marker lines lose their special meaning. -/
theorem C10_deployments_ignores_markers (m : Dict MethodRecord)
    (d : Dict DeploymentRecord) (line : String)
    (_hmark : pyContains line "Contract" = true ∨ pyContains line "Deployments" = true) :
    ((flatten_line line).length = 6 →
      ∃ labeled_data : DeploymentRecord,
        mkDeploymentRecord? (flatten_line line) = some labeled_data ∧
        labeled_data.contract = (flatten_line line).getD 0 "" ∧
        parseStep .DEPLOYMENTS m d line =
          (.DEPLOYMENTS, m, dictInsert d labeled_data.contract labeled_data))
    ∧ ((flatten_line line).length ≠ 6 →
      parseStep .DEPLOYMENTS m d line = (.DEPLOYMENTS, m, d)) := by
  constructor
  · intro h6
    rcases exists_of_len6 _ h6 with ⟨a, b, c, e, f, g, hl⟩
    refine ⟨⟨a, b, c, e, f, g⟩, ?_, ?_, ?_⟩
    · rw [hl]; rfl
    · rw [hl]; rfl
    · unfold parseStep
      rw [hl]
      rfl
  · intro h6
    unfold parseStep
    rw [mkDeploymentRecord?_eq_none h6]

/-- Witness for C10: a 6-column line containing the `"Deployments"` marker is
stored as a deployment record in the terminal state. -/
theorem C10_deployments_ignores_markers_witness :
    parseStep .DEPLOYMENTS [] [] "│ Deployments · a · b · c · d · e │"
      = (.DEPLOYMENTS, [],
         dictInsert [] "Deployments" ⟨"Deployments", "a", "b", "c", "d", "e"⟩) := by
  obtain ⟨r, hr, _, hstep⟩ :=
    (C10_deployments_ignores_markers [] [] "│ Deployments · a · b · c · d · e │"
      (Or.inr (by decide))).1 (by decide)
  have hval : mkDeploymentRecord? (flatten_line "│ Deployments · a · b · c · d · e │")
      = some ⟨"Deployments", "a", "b", "c", "d", "e"⟩ := by decide
  rw [hval] at hr
  have hr' : r = (⟨"Deployments", "a", "b", "c", "d", "e"⟩ : DeploymentRecord) :=
    (Option.some.inj hr).symm
  rw [hr'] at hstep
  exact hstep

/-- C2: in `METHODS`, on a line without the transition substring
`"Deployments"`, a record is created iff the line flattens to exactly 7
values; it is keyed by the first value, a literal `"."`, and the second
value, and overwrites any prior entry at that key (the final `dfind?`
conjuncts, which hold for arbitrary prior mappings).  In `DEPLOYMENTS` a
record is created iff the line flattens to exactly 6 values, keyed by the
first value, with the same overwrite rule.  Any other flattened count
leaves the mappings unchanged. -/
theorem C2_record_arity (m : Dict MethodRecord) (d : Dict DeploymentRecord)
    (line : String) :
    (pyContains line "Deployments" = false →
      (((flatten_line line).length = 7 →
        ∃ labeled_data : MethodRecord,
          mkMethodRecord? (flatten_line line) = some labeled_data ∧
          labeled_data.contract = (flatten_line line).getD 0 "" ∧
          labeled_data.method = (flatten_line line).getD 1 "" ∧
          parseStep .METHODS m d line =
            (.METHODS,
             dictInsert m (labeled_data.contract ++ "." ++ labeled_data.method)
               labeled_data,
             d) ∧
          dfind?
            (dictInsert m (labeled_data.contract ++ "." ++ labeled_data.method)
              labeled_data)
            (labeled_data.contract ++ "." ++ labeled_data.method)
            = some labeled_data)
      ∧ ((flatten_line line).length ≠ 7 →
          parseStep .METHODS m d line = (.METHODS, m, d))))
    ∧ (((flatten_line line).length = 6 →
        ∃ labeled_data : DeploymentRecord,
          mkDeploymentRecord? (flatten_line line) = some labeled_data ∧
          labeled_data.contract = (flatten_line line).getD 0 "" ∧
          parseStep .DEPLOYMENTS m d line =
            (.DEPLOYMENTS, m, dictInsert d labeled_data.contract labeled_data) ∧
          dfind? (dictInsert d labeled_data.contract labeled_data)
            labeled_data.contract = some labeled_data)
      ∧ ((flatten_line line).length ≠ 6 →
          parseStep .DEPLOYMENTS m d line = (.DEPLOYMENTS, m, d))) := by
  constructor
  · intro hnd
    have hb : pyContains line "Deployments" ≠ true := by simp [hnd]
    constructor
    · intro h7
      rcases exists_of_len7 _ h7 with ⟨a, b, c, e, f, g, k, hl⟩
      refine ⟨⟨a, b, c, e, f, g, k⟩, ?_, ?_, ?_, ?_, ?_⟩
      · rw [hl]; rfl
      · rw [hl]; rfl
      · rw [hl]; rfl
      · simp only [parseStep, if_neg hb]
        rw [hl]
        rfl
      · exact dfind?_dictInsert _ _ _
    · intro h7
      simp only [parseStep, if_neg hb, mkMethodRecord?_eq_none h7]
  · constructor
    · intro h6
      rcases exists_of_len6 _ h6 with ⟨a, b, c, e, f, g, hl⟩
      refine ⟨⟨a, b, c, e, f, g⟩, ?_, ?_, ?_, ?_⟩
      · rw [hl]; rfl
      · rw [hl]; rfl
      · simp only [parseStep]
        rw [hl]
        rfl
      · exact dfind?_dictInsert _ _ _
    · intro h6
      simp only [parseStep, mkDeploymentRecord?_eq_none h6]

/-- Witness for C2: a 7-column methods line creates the expected keyed
record; an 8-column line leaves the mapping unchanged. -/
theorem C2_record_arity_witness :
    parseStep .METHODS [] [] "│ A · foo · 1 · 2 · 100 · 3 · 4 │"
      = (.METHODS, dictInsert [] ("A" ++ "." ++ "foo") ⟨"A", "foo", "1", "2", "100", "3", "4"⟩, [])
    ∧ parseStep .METHODS [] [] "│ A · foo · 1 · 2 · 100 · 3 · 4 · 5 │"
      = (.METHODS, [], []) := by
  constructor
  · obtain ⟨r, hr, _, _, hstep, _⟩ :=
      ((C2_record_arity [] [] "│ A · foo · 1 · 2 · 100 · 3 · 4 │").1 (by decide)).1
        (by decide)
    have hval : mkMethodRecord? (flatten_line "│ A · foo · 1 · 2 · 100 · 3 · 4 │")
        = some ⟨"A", "foo", "1", "2", "100", "3", "4"⟩ := by decide
    rw [hval] at hr
    have hr' : r = (⟨"A", "foo", "1", "2", "100", "3", "4"⟩ : MethodRecord) :=
      (Option.some.inj hr).symm
    rw [hr'] at hstep
    exact hstep
  · exact ((C2_record_arity [] [] "│ A · foo · 1 · 2 · 100 · 3 · 4 · 5 │").1
      (by decide)).2 (by decide)

/-- C3: the flattener returns exactly the subsequence of middle-dot
segments that are non-empty after stripping `'│'`, `'|'`, space and newline
from both ends, each mapped to its stripped form; the worked example holds;
a line without `'·'` yields at most one element; a line of only separator
characters yields the empty sequence. -/
theorem C3_flattener :
    (∀ line : String,
      flatten_line line =
        ((splitOnChar '·' line.toList).filter
            (fun seg => !(stripChars seg).isEmpty)).map
          (fun seg => String.mk (stripChars seg)))
    ∧ flatten_line "│ Foo · bar · 123 │" = ["Foo", "bar", "123"]
    ∧ (∀ line : String, '·' ∉ line.toList → (flatten_line line).length ≤ 1)
    ∧ (∀ line : String,
        (∀ c ∈ line.toList, isStripChar c = true ∨ c = '·') →
        flatten_line line = []) := by
  refine ⟨?_, by decide, ?_, ?_⟩
  · intro line
    exact filterMap_strip _
  · intro line h
    unfold flatten_line
    rw [splitOnChar_of_not_mem '·' _ h]
    by_cases hstrip : stripChars line.data = [] <;>
      simp [List.filterMap, String.toList, hstrip]
  · intro line h
    unfold flatten_line
    rw [List.filterMap_eq_nil_iff]
    intro seg hseg
    have hall : ∀ c ∈ seg, isStripChar c = true := by
      intro c hc
      rcases mem_splitOnChar '·' line.toList seg hseg c hc with ⟨hmem, hne⟩
      rcases h c hmem with hs | hdot
      · exact hs
      · exact absurd hdot hne
    simp [stripChars_eq_nil hall]

/-- Witness for C3 at concrete lines: no middle dot gives at most one
element, a separators-only line gives the empty sequence. -/
theorem C3_flattener_witness :
    (flatten_line "hello world").length ≤ 1 ∧ flatten_line "│ · │ ·│" = [] :=
  ⟨C3_flattener.2.2.1 "hello world" (by decide),
   C3_flattener.2.2.2 "│ · │ ·│" (by decide)⟩

/-- C5 (amended): for a key on both sides with `keep_zeros = false`, the row
is skipped (no line emitted, no error) iff the two avg strings are
byte-identical; unequal strings always leave the skip branch (`"100"` vs
`"100.0"` is treated as changed, but the attempted row then fails with a
`ValueError`, so only integer-parseable unequal avgs produce a row).  With
`keep_zeros = true` the row is emitted whenever both avgs parse as integers
and the before avg is nonzero. -/
theorem C5_skip_iff_string_equal {α : Type} [HasAvg α] (before after : Dict α)
    (key : String) (bt : Bool) (b a : α)
    (hb : dfind? before key = some b) (ha : dfind? after key = some a) :
    (print_table_line before after key ⟨false, bt⟩ = .ok []
      ↔ HasAvg.avg b = HasAvg.avg a)
    ∧ (∀ bi ai : Int, pyInt? (HasAvg.avg b) = some bi → bi ≠ 0 →
        pyInt? (HasAvg.avg a) = some ai →
        ∃ row, print_table_line before after key ⟨true, bt⟩ = .ok [row]) := by
  constructor
  · by_cases heq : HasAvg.avg b = HasAvg.avg a
    · unfold print_table_line
      simp only [hb, ha]
      rw [if_neg (by simp [heq])]
      simp [heq]
    · unfold print_table_line
      simp only [hb, ha]
      rw [if_pos (by simp [heq])]
      constructor
      · intro hok
        rcases hcalc : calculate_line (HasAvg.avg b) (HasAvg.avg a) with e | cols
        · rw [hcalc] at hok
          simp [Except.map] at hok
        · rw [hcalc] at hok
          simp [Except.map] at hok
      · intro h
        exact absurd h heq
  · intro bi ai hbi hbi0 hai
    unfold print_table_line
    simp only [hb, ha]
    rw [if_pos (by simp)]
    unfold calculate_line
    simp only [hbi, hai]
    rw [if_neg hbi0]
    exact ⟨_, rfl⟩

/-- Counterexample to C5 as stated: with before avg `"100"` and after avg
`"100.0"` the row is indeed not skipped, but no row is produced either —
`int("100.0")` raises a `ValueError`, so the process dies instead of
emitting the row the claim promises. -/
theorem C5_counterexample :
    print_table_line
        [("k", (⟨"C", "m", "1", "2", "100", "3", "4"⟩ : MethodRecord))]
        [("k", (⟨"C", "m", "1", "2", "100.0", "3", "4"⟩ : MethodRecord))]
        "k" ⟨false, false⟩ = .error .valueError
    ∧ (Except.error PyError.valueError : Except PyError (List String))
        ≠ .ok ["| `k` | 100 | 100.0 | +0 | +0.00% |"] := by
  constructor
  · decide
  · decide

/-- Witness for C5: identical avg strings on both sides are skipped. -/
theorem C5_skip_iff_string_equal_witness :
    print_table_line
        [("k", (⟨"C", "m", "1", "2", "100", "3", "4"⟩ : MethodRecord))]
        [("k", (⟨"C", "m", "9", "9", "100", "9", "9"⟩ : MethodRecord))]
        "k" ⟨false, false⟩ = .ok [] :=
  ((C5_skip_iff_string_equal _ _ "k" false
      ⟨"C", "m", "1", "2", "100", "3", "4"⟩ ⟨"C", "m", "9", "9", "100", "9", "9"⟩
      (by decide) (by decide)).1).mpr rfl

/-- C6: a key present on exactly one side yields, when `both = false`, a row
with the key, the available avg in the matching Before/After column and
`"-"` in the other three columns; when `both = true` no row is emitted. -/
theorem C6_one_sided {α : Type} [HasAvg α] (before after : Dict α)
    (key : String) (kz : Bool) :
    (∀ b, dfind? before key = some b → dfind? after key = none →
      print_table_line before after key ⟨kz, false⟩
          = .ok [print_list_in_markdown_table
              ["`" ++ key ++ "`", HasAvg.avg b, "-", "-", "-"]]
        ∧ print_table_line before after key ⟨kz, true⟩ = .ok [])
    ∧ (∀ a, dfind? before key = none → dfind? after key = some a →
      print_table_line before after key ⟨kz, false⟩
          = .ok [print_list_in_markdown_table
              ["`" ++ key ++ "`", "-", HasAvg.avg a, "-", "-"]]
        ∧ print_table_line before after key ⟨kz, true⟩ = .ok []) := by
  constructor
  · intro b hb hna
    constructor
    · unfold print_table_line
      simp only [hb, hna]
      simp
    · unfold print_table_line
      simp only [hb, hna]
      simp
  · intro a hnb ha
    constructor
    · unfold print_table_line
      simp only [hnb, ha]
      simp
    · unfold print_table_line
      simp only [hnb, ha]
      simp

/-- Witness for C6: a before-only key with `both = false` and `both = true`. -/
theorem C6_one_sided_witness :
    print_table_line
        [("B.bar", (⟨"B", "bar", "1", "2", "77", "3", "4"⟩ : MethodRecord))]
        ([] : Dict MethodRecord) "B.bar" ⟨false, false⟩
      = .ok ["| `B.bar` | 77 | - | - | - |"]
    ∧ print_table_line
        [("B.bar", (⟨"B", "bar", "1", "2", "77", "3", "4"⟩ : MethodRecord))]
        ([] : Dict MethodRecord) "B.bar" ⟨false, true⟩ = .ok [] := by
  have h := (C6_one_sided
      [("B.bar", (⟨"B", "bar", "1", "2", "77", "3", "4"⟩ : MethodRecord))]
      ([] : Dict MethodRecord) "B.bar" false).1
      ⟨"B", "bar", "1", "2", "77", "3", "4"⟩ (by decide) (by decide)
  refine ⟨?_, h.2⟩
  rw [h.1]
  decide

/-- C7 (amended): for a key on both sides whose before avg is the string
`"0"`, not skipped by the `keep_zeros` rule, and whose after avg parses as
an integer, the percentage computation fails with the uncaught
`ZeroDivisionError`: the formatter's result is that fatal error, nothing
catches it.  (If the after avg does not parse, `int(after)` raises a
`ValueError` first — see the counterexample.) -/
theorem C7_zero_before_divzero {α : Type} [HasAvg α] (before after : Dict α)
    (key : String) (args : Args) (b a : α) (n : Int)
    (hb : dfind? before key = some b) (ha : dfind? after key = some a)
    (h0 : HasAvg.avg b = "0")
    (hskip : ¬(args.keep_zeros = false ∧ HasAvg.avg b = HasAvg.avg a))
    (hn : pyInt? (HasAvg.avg a) = some n) :
    print_table_line before after key args = .error .zeroDivisionError := by
  unfold print_table_line
  simp only [hb, ha]
  rw [if_pos hskip]
  unfold calculate_line
  rw [h0]
  have hz : pyInt? "0" = some 0 := by decide
  simp only [hz, hn]
  simp [Except.map]

/-- Witness for C7 with before avg `"0"` and after avg `"5"`. -/
theorem C7_zero_before_divzero_witness :
    print_table_line
        [("k", (⟨"C", "m", "1", "2", "0", "3", "4"⟩ : MethodRecord))]
        [("k", (⟨"C", "m", "1", "2", "5", "3", "4"⟩ : MethodRecord))]
        "k" ⟨false, false⟩ = .error .zeroDivisionError :=
  C7_zero_before_divzero _ _ "k" ⟨false, false⟩
    ⟨"C", "m", "1", "2", "0", "3", "4"⟩ ⟨"C", "m", "1", "2", "5", "3", "4"⟩ 5
    (by decide) (by decide) rfl (by decide) (by decide)

/-- Counterexample to C7 as stated: with before avg `"0"` and after avg
`"x"` (key on both sides, not skipped), the failure is a `ValueError` from
`int("x")`, reached before the division, not the claimed arithmetic
division-by-zero error. -/
theorem C7_counterexample :
    print_table_line
        [("k", (⟨"C", "m", "1", "2", "0", "3", "4"⟩ : MethodRecord))]
        [("k", (⟨"C", "m", "1", "2", "x", "3", "4"⟩ : MethodRecord))]
        "k" ⟨false, false⟩ = .error .valueError
    ∧ (Except.error PyError.valueError : Except PyError (List String))
        ≠ .error .zeroDivisionError := by
  constructor
  · decide
  · decide

/-- C8: the key list the formatter iterates over is the sorted union of the
two key sets: it is symmetric in the two dicts, sorted under the
lexicographic `String` order, duplicate-free (hence a total, deterministic
row order), and contains exactly the keys present in either mapping. -/
theorem C8_sorted_union {α β : Type} (d1 : Dict α) (d2 : Dict β) :
    dicts_union d1 d2 = dicts_union d2 d1
    ∧ List.Sorted (· ≤ ·) (dicts_union d1 d2)
    ∧ (dicts_union d1 d2).Nodup
    ∧ (∀ k : String, k ∈ dicts_union d1 d2 ↔
        k ∈ d1.map Prod.fst ∨ k ∈ d2.map Prod.fst) := by
  have hsorted : ∀ {γ δ : Type} (e1 : Dict γ) (e2 : Dict δ),
      List.Sorted (· ≤ ·) (dicts_union e1 e2) :=
    fun e1 e2 => List.sorted_insertionSort _ _
  have hnodup : ∀ {γ δ : Type} (e1 : Dict γ) (e2 : Dict δ),
      (dicts_union e1 e2).Nodup :=
    fun e1 e2 => ((List.perm_insertionSort _ _).nodup_iff).mpr (List.nodup_dedup _)
  have hmem : ∀ {γ δ : Type} (e1 : Dict γ) (e2 : Dict δ) (k : String),
      k ∈ dicts_union e1 e2 ↔ k ∈ e1.map Prod.fst ∨ k ∈ e2.map Prod.fst := by
    intro γ δ e1 e2 k
    unfold dicts_union
    rw [(List.perm_insertionSort _ _).mem_iff, List.mem_dedup, List.mem_append]
  refine ⟨?_, hsorted d1 d2, hnodup d1 d2, hmem d1 d2⟩
  apply List.eq_of_perm_of_sorted ?_ (hsorted d1 d2) (hsorted d2 d1)
  rw [List.perm_ext_iff_of_nodup (hnodup d1 d2) (hnodup d2 d1)]
  intro k
  rw [hmem d1 d2 k, hmem d2 d1 k]
  exact or_comm

end Hhgrdiff
